import Mathlib

set_option maxRecDepth 10000

/-
  Verification development for mininet/node.py.

  Byte streams are modelled as lists of naturals (byte values); Python 2
  strings are byte strings.  Stateful Node objects become explicit records,
  OS-level reads become explicit consumption from a pending-byte list, and
  Python exceptions become Except values.  External collaborators
  (quietRun, makeIntfPair, moveIntf, isShellBuiltin from mininet.util, and
  the OS commands issued through the shell) are modelled as parameters or
  as recorded trace events, exactly as the spec declares them external.
-/

/-! ## Channel state: Node.readbuf plus the bytes pending on the pty fd -/

structure RState where
  readbuf : List Nat
  kern    : List Nat
deriving Repr, DecidableEq

/-- Node.read (node.py lines 145-158).  bytes: maximum number of bytes to
return.  count = len(readbuf); if count < bytes it does
os.read(fd, bytes - count), which returns at most that many bytes; the
oracle a models how many bytes the kernel actually delivers on this call
(os.read may return fewer bytes than requested). -/
def chanRead (n a : Nat) (s : RState) : List Nat × RState :=
  let count := s.readbuf.length
  let (buf, kern) :=
    if count < n then
      let t := Nat.min a (n - count)
      (s.readbuf ++ s.kern.take t, s.kern.drop t)
    else (s.readbuf, s.kern)
  if buf.length ≤ n then (buf, ⟨[], kern⟩)
  else (buf.take n, ⟨buf.drop n, kern⟩)

/-- A sequence of Node.read calls: each entry is (requested bytes, oracle). -/
def runReads : List (Nat × Nat) → RState → List (List Nat) × RState
  | [], s => ([], s)
  | (n, a) :: rest, s =>
    let (d, s1) := chanRead n a s
    let (ds, s2) := runReads rest s1
    (d :: ds, s2)

/-! ## Byte-level helpers -/

def isDigitB (c : Nat) : Bool := 48 ≤ c && c ≤ 57

/-- A word character for the regex backslash-w: [a-zA-Z0-9_]. -/
def isWordByte (c : Nat) : Bool :=
  (48 ≤ c && c ≤ 57) || (65 ≤ c && c ≤ 90) || (97 ≤ c && c ≤ 122) || c == 95

def hasWordChar (l : List Nat) : Bool := l.any isWordByte

/-- Decimal digits of n, most significant first (Python str(n) / repr(n)
for a nonnegative int), as byte values. -/
def natDigitsAux : Nat → Nat → List Nat → List Nat
  | 0, _, acc => acc
  | f + 1, n, acc =>
    if n < 10 then (48 + n) :: acc
    else natDigitsAux f (n / 10) ((48 + n % 10) :: acc)

def natDigits (n : Nat) : List Nat := natDigitsAux (n + 1) n []

def digitsVal (ds : List Nat) : Nat := ds.foldl (fun a c => 10 * a + (c - 48)) 0

/-! ## Node command-channel state -/

structure NState where
  chan    : RState
  serial  : Nat
  waiting : Bool
  lastCmd : Option (List Nat)
  lastPid : Option Nat
  execed  : Bool
  /-- accumulated bytes written to the shell (Node.write) -/
  wlog    : List Nat
deriving Repr, DecidableEq

/-- The sync marker of Node.sendCmd: the string percent-formatted from
the template with underscores and SINGLE spaces around the serial
(node.py line 199). -/
def markerFor (k : Nat) : List Nat := 95 :: 95 :: 32 :: (natDigits k ++ [32, 95, 95])

/-- The echo line written by Node.sendCmd (node.py line 198): the literal
bytes of the echo command with THREE spaces around the serial, plus the
trailing newline. -/
def echoCmdFor (k : Nat) : List Nat :=
  [101, 99, 104, 111, 32, 95, 95, 32, 32, 32] ++ natDigits k ++ [32, 32, 32, 95, 95, 10]

/-- buf.find(pat): index of the first occurrence of pat in buf, none if
absent (Python returns -1). -/
def findSub (pat : List Nat) : List Nat → Option Nat
  | [] => if pat.isEmpty then some 0 else none
  | c :: rest =>
    if pat.isPrefixOf (c :: rest) then some 0
    else (findSub pat rest).map (fun i => i + 1)

/-- First while loop of Node.sendCmd (node.py lines 201-206): grow buf by
read(1024) until the marker appears, then drop through the end of the
marker.  Fuel bounds the iterations (the Python loop can spin forever on
a silent channel). -/
def echoLoop (pat : List Nat) : Nat → List Nat → RState → Option (List Nat × RState)
  | 0, _, _ => none
  | f + 1, buf, ch =>
    match findSub pat buf with
    | some i => some (buf.drop (i + pat.length), ch)
    | none =>
      let (d, ch1) := chanRead 1024 1024 ch
      echoLoop pat f (buf ++ d) ch1

/-- Second while loop of Node.sendCmd (node.py lines 207-210): grow buf
until the prompt byte chr(127) appears; the buffer is then discarded. -/
def promptLoop : Nat → List Nat → RState → Option RState
  | 0, _, _ => none
  | f + 1, buf, ch =>
    if buf.contains 127 then some ch
    else
      let (d, ch1) := chanRead 1024 1024 ch
      promptLoop f (buf ++ d) ch1

def joinBySpace : List (List Nat) → List Nat
  | [] => []
  | [c] => c
  | c :: rest => c ++ 32 :: joinBySpace rest

/-- bytes of: echo -n -/
def echoDashN : List Nat := [101, 99, 104, 111, 32, 45, 110]

/-- bytes of: mnexec -p  (with trailing space) -/
def mnexecPre : List Nat := [109, 110, 101, 120, 101, 99, 32, 45, 112, 32]

/-- bytes of: stdbuf -i0 -o0 -e0  (with trailing space) -/
def stdbufPre : List Nat :=
  [115, 116, 100, 98, 117, 102, 32, 45, 105, 48, 32, 45, 111, 48, 32, 45, 101, 48, 32]

inductive SendErr where
  /-- the assert not self.waiting fired; the node state at the raise
  (unchanged, since the assert is the first statement) -/
  | assertWaiting : NState → SendErr
  /-- args was empty so the local variable cmd was never assigned
  (NameError); the node state at the raise -/
  | noArgs : NState → SendErr
  /-- a sync loop did not terminate within the given fuel -/
  | fuelOut : SendErr
deriving Repr

/-- The command-wrapping step of Node.sendCmd (node.py lines 216-225):
empty-looking commands are replaced by a harmless echo -n; then, when
printPid is requested and the command is not a shell builtin, the command
is prefixed with mnexec -p (when use_mnexec) and with the stdbuf
unbuffering wrapper (when mn_disable_io_buf). -/
def wrapCmd (isBuiltin : List Nat → Bool)
    (printPid useMnexec disableIoBuf : Bool) (cmd0 : List Nat) : List Nat :=
  let cmd1 := if hasWordChar cmd0 then cmd0 else echoDashN
  if printPid && !(isBuiltin cmd1) then
    if disableIoBuf then
      stdbufPre ++ (if useMnexec then mnexecPre ++ cmd1 else cmd1)
    else (if useMnexec then mnexecPre ++ cmd1 else cmd1)
  else cmd1

/-- Node.sendCmd (node.py lines 191-231).  kwargs become explicit
parameters; Node callers default printPid=true, useMnexec=true,
disableIoBuf=false, waitFlag=true.  isBuiltin models the external
mininet.util.isShellBuiltin. -/
def sendCmd (isBuiltin : List Nat → Bool)
    (printPid useMnexec disableIoBuf waitFlag : Bool)
    (fuel : Nat) (args : List (List Nat)) (s : NState) : Except SendErr NState :=
  if s.waiting then .error (.assertWaiting s)
  else
    match echoLoop (markerFor (s.serial + 1)) fuel [] s.chan with
    | none => .error .fuelOut
    | some (buf, ch) =>
      match promptLoop fuel buf ch with
      | none => .error .fuelOut
      | some ch2 =>
        match args with
        | [] =>
          .error (.noArgs { s with
            serial := s.serial + 1, chan := ch2,
            wlog := s.wlog ++ echoCmdFor (s.serial + 1) })
        | _ :: _ =>
          if waitFlag then
            .ok { s with
              serial := s.serial + 1, chan := ch2,
              wlog := (s.wlog ++ echoCmdFor (s.serial + 1)) ++
                (wrapCmd isBuiltin printPid useMnexec disableIoBuf
                  (joinBySpace args) ++ [10]),
              lastCmd := some (wrapCmd isBuiltin printPid useMnexec disableIoBuf
                (joinBySpace args)),
              lastPid := none, waiting := true }
          else
            .ok { s with
              serial := s.serial + 1, chan := ch2,
              wlog := (s.wlog ++ echoCmdFor (s.serial + 1)) ++
                (wrapCmd isBuiltin printPid useMnexec disableIoBuf
                  (joinBySpace args) ++ [10]) }

/-- Controller does not override sendCmd: dispatch on a Controller node is
exactly Node.sendCmd (node.py: class Controller defines only start, stop
and IP). -/
def controllerSendCmd := sendCmd

inductive SwitchSendResult where
  | dispatched : Except SendErr NState → SwitchSendResult
  /-- execed was set: an error is logged, nothing is written, the state
  is returned unchanged -/
  | rejected : NState → SwitchSendResult
deriving Repr

/-- Switch.sendCmd (node.py lines 577-585): defaults printPid to false,
then defers to Node.sendCmd unless execed is set, in which case it only
logs an error. -/
def switchSendCmd (isBuiltin : List Nat → Bool) (printPid? : Option Bool)
    (useMnexec disableIoBuf waitFlag : Bool)
    (fuel : Nat) (args : List (List Nat)) (s : NState) : SwitchSendResult :=
  let pp := printPid?.getD false
  if s.execed then .rejected s
  else .dispatched (sendCmd isBuiltin pp useMnexec disableIoBuf waitFlag fuel args s)

/-! ## Node.monitor -/

/-- Attempt to read the tail of a PID marker right after a chr(1): one or
more decimal digits followed by carriage return and newline.  The regex
digit-plus is greedy and digits cannot be part of the two trailing
control bytes, so the maximal digit run is the only candidate. -/
def pidTry (l : List Nat) : Option (List Nat × List Nat) :=
  let ds := l.takeWhile isDigitB
  if ds.isEmpty then none
  else
    match l.drop ds.length with
    | 13 :: 10 :: rest => some (ds, rest)
    | _ => none

/-- One left-to-right scan implementing both re.findall and re.sub for the
PID-marker pattern: returns the digit groups of all matches and the text
with every match removed.  Fuel at least the length of the input
suffices (each step consumes at least one byte). -/
def scanMarkers : Nat → List Nat → List (List Nat) × List Nat
  | _, [] => ([], [])
  | 0, l => ([], l)
  | f + 1, c :: rest =>
    if c = 1 then
      match pidTry rest with
      | some (ds, rest1) =>
        let (ms, r) := scanMarkers f rest1
        (ds :: ms, r)
      | none =>
        let (ms, r) := scanMarkers f rest
        (ms, c :: r)
    else
      let (ms, r) := scanMarkers f rest
      (ms, c :: r)

/-- The pure part of Node.monitor (node.py lines 243-257) applied to the
chunk read: PID-marker extraction, then the sentinel scan.  Returns the
text to return, the new waiting flag and the new lastPid.
int() of the matched digits plus the trailing whitespace is the digit
value (int strips whitespace). -/
def monitorData (data : List Nat) (waiting : Bool) (lastPid : Option Nat) :
    List Nat × Bool × Option Nat :=
  let (data1, lp) :=
    if data.contains 1 then
      match scanMarkers data.length data with
      | ([], _) => (data, lastPid)
      | (ds :: _, residual) => (residual, some (digitsVal ds))
    else (data, lastPid)
  if data1.getLast? = some 127 then (data1.dropLast, false, lp)
  else if data1.contains 127 then (data1.filter (fun c => !(c == 127)), false, lp)
  else (data1, waiting, lp)

/-- Node.monitor (node.py lines 237-257): waitReadable then read(1024),
then the marker/sentinel processing. -/
def monitor (s : NState) : List Nat × NState :=
  let (data, ch) := chanRead 1024 1024 s.chan
  let (out, w, lp) := monitorData data s.waiting s.lastPid
  (out, { s with chan := ch, waiting := w, lastPid := lp })

/-- Node.waitOutput (node.py lines 259-273).  The optional compiled regex
becomes an optional boolean predicate on the accumulated output; fuel
bounds the loop. -/
def waitOutput (patt : Option (List Nat → Bool)) :
    Nat → List Nat → NState → Option (List Nat × NState)
  | 0, _, _ => none
  | f + 1, output, s =>
    if s.waiting && (match patt with | none => true | some p => !(p output)) then
      let (d, s1) := monitor s
      waitOutput patt f (output ++ d) s1
    else some (output, s)

/-- New bytes arriving from the shell onto the channel. -/
def feed (s : NState) (bs : List Nat) : NState :=
  { s with chan := { s.chan with kern := s.chan.kern ++ bs } }

/-! ## Topology bookkeeping: ports, interface names, connections -/

abbrev Intf := List Nat

inductive PyErr where
  | keyError
  | valueError
  | nameError
  | indexError
  | contiguityError
deriving Repr, DecidableEq

/-- Python dict lookup d.get(k) on an association list (first match). -/
def dlookup {α β : Type} [DecidableEq α] : List (α × β) → α → Option β
  | [], _ => none
  | (k, v) :: rest, k1 => if k1 = k then some v else dlookup rest k1

/-- del d[k] minus the KeyError (callers check presence first). -/
def ddelete {α β : Type} [DecidableEq α] (d : List (α × β)) (k : α) : List (α × β) :=
  d.filter (fun kv => decide (kv.1 ≠ k))

/-- d[k] = v: replaces any existing binding of k. -/
def dinsert {α β : Type} [DecidableEq α] (d : List (α × β)) (k : α) (v : β) :
    List (α × β) :=
  (k, v) :: ddelete d k

structure NodeMaps where
  /-- object identity, standing for the Python object reference -/
  id : Nat
  name : List Nat
  portBase : Nat
  /-- dict of port numbers to interface names -/
  intfs : List (Nat × Intf)
  /-- dict of interface names to port numbers -/
  ports : List (Intf × Nat)
  /-- remote (node, interface) connected to each interface -/
  connection : List (Intf × (Nat × Intf))
deriving Repr, DecidableEq

/-- bytes of: -eth -/
def ethTag : List Nat := [45, 101, 116, 104]

/-- Node.intfName (node.py lines 297-299): name + -eth + repr(n). -/
def intfName (m : NodeMaps) (n : Nat) : Intf := m.name ++ ethTag ++ natDigits n

/-- s.rfind(pat): index of the last occurrence. -/
def rfindSub (pat l : List Nat) : Option Nat :=
  ((List.range (l.length + 1)).filter (fun i => pat.isPrefixOf (l.drop i))).getLast?

/-- int(s) for the suffix: all decimal digits and nonempty, else the
ValueError path. -/
def parseInt (l : List Nat) : Option Nat :=
  if l.isEmpty then none
  else if l.all isDigitB then some (digitsVal l) else none

/-- Node.intfToPort (node.py lines 301-305): rfind of -eth, None if
absent; int() of the rest, which raises ValueError on a non-numeric
suffix (for instance a vlan interface name with a dot). -/
def intfToPort (i : Intf) : Except PyErr (Option Nat) :=
  match rfindSub ethTag i with
  | none => .ok none
  | some idx =>
    match parseInt (i.drop (idx + 4)) with
    | none => .error .valueError
    | some p => .ok (some p)

/-- max of a list of naturals (foldr with identity 0; equals the Python
max on the nonempty lists it is applied to). -/
def listMax (l : List Nat) : Nat := l.foldr max 0

/-- min of a nonempty list of naturals, Python min. -/
def listMin : List Nat → Nat
  | [] => 0
  | x :: xs => xs.foldl min x

/-- Node.newPort (node.py lines 307-311). -/
def newPort (m : NodeMaps) : Nat :=
  if m.ports.isEmpty then m.portBase
  else listMax (m.ports.map (fun pr => pr.2)) + 1

/-- Node.addIntf (node.py lines 313-325); moveIntf is an external OS
action with no effect on the maps. -/
def addIntf (m : NodeMaps) (i : Intf) (port? : Option Nat) : NodeMaps :=
  let p := port?.getD (newPort m)
  { m with intfs := dinsert m.intfs p i, ports := dinsert m.ports i p }

/-- Node.registerIntf (node.py lines 327-329). -/
def registerIntf (m : NodeMaps) (i : Intf) (dstId : Nat) (dstIntf : Intf) : NodeMaps :=
  { m with connection := dinsert m.connection i (dstId, dstIntf) }

/-- Node.deleteIntf (node.py lines 398-406): del connection[intf] (KeyError
if absent), port from the interface NAME via intfToPort, del intfs[port]
when a port was parsed, del ports[intf]; then the external command
deleting the OS interface. -/
def deleteIntf (m : NodeMaps) (i : Intf) : Except PyErr NodeMaps :=
  match dlookup m.connection i with
  | none => .error .keyError
  | some _ =>
    let m1 := { m with connection := ddelete m.connection i }
    match intfToPort i with
    | .error e => .error e
    | .ok none =>
      match dlookup m1.ports i with
      | none => .error .keyError
      | some _ => .ok { m1 with ports := ddelete m1.ports i }
    | .ok (some p) =>
      match dlookup m1.intfs p with
      | none => .error .keyError
      | some _ =>
        let m2 := { m1 with intfs := ddelete m1.intfs p }
        match dlookup m2.ports i with
        | none => .error .keyError
        | some _ => .ok { m2 with ports := ddelete m2.ports i }

/-- Node.deletePort (node.py lines 408-409). -/
def deletePort (m : NodeMaps) (p : Nat) : Except PyErr NodeMaps :=
  deleteIntf m (intfName m p)

/-- The deletion loop at the end of Node.deleteIntfsToNode: the interface
list is collected in full before any deletion. -/
def deleteIntfList : List Intf → NodeMaps → Except PyErr NodeMaps
  | [], m => .ok m
  | i :: is, m =>
    match deleteIntf m i with
    | .error e => .error e
    | .ok m1 => deleteIntfList is m1

/-- Node.deleteIntfsToNode (node.py lines 376-396). -/
def deleteIntfsToNode (m : NodeMaps) (dst : NodeMaps) (dstPort? : Option Nat) :
    Except PyErr NodeMaps :=
  let dstIntf? := dstPort?.map (intfName dst)
  let is :=
    (m.connection.filter (fun c =>
      match dstIntf? with
      | some di => decide (c.2.2 = di)
      | none => decide (c.2.1 = dst.id))).map (fun c => c.1)
  deleteIntfList is m

/-- Node.unlinkFrom with an explicit peer (node.py lines 366-374): delete
our interfaces to the peer, then the peer's interfaces to us. -/
def unlinkFrom (m1 m2 : NodeMaps) : Except PyErr (NodeMaps × NodeMaps) :=
  match deleteIntfsToNode m1 m2 none with
  | .error e => .error e
  | .ok m1a =>
    match deleteIntfsToNode m2 m1a none with
    | .error e => .error e
    | .ok m2a => .ok (m1a, m2a)

structure LinkResult where
  n1 : NodeMaps
  n2 : NodeMaps
  intf1 : Intf
  intf2 : Intf
deriving Repr, DecidableEq

/-- Node.linkTo (node.py lines 346-364); makeIntfPair is the external OS
veth creation. -/
def linkTo (m1 m2 : NodeMaps) (port1? port2? : Option Nat) : LinkResult :=
  let p1 := port1?.getD (newPort m1)
  let p2 := port2?.getD (newPort m2)
  let i1 := intfName m1 p1
  let i2 := intfName m2 p2
  let n1 := addIntf m1 i1 (some p1)
  let n2 := addIntf m2 i2 (some p2)
  let n1 := registerIntf n1 i1 n2.id i2
  let n2 := registerIntf n2 i2 n1.id i1
  ⟨n1, n2, i1, i2⟩

/-- Node.defaultIntf (node.py lines 461-465): the interface at the lowest
port, or None when there are no interfaces. -/
def nodeDefaultIntf (m : NodeMaps) : Option Intf :=
  let ks := m.intfs.map (fun pr => pr.1)
  if ks.isEmpty then none else dlookup m.intfs (listMin ks)

/-- Switch.defaultIntf (node.py lines 564-569): the interface at the
HIGHEST port; with no interfaces the local variable intf is never
assigned and the return raises (NameError). -/
def switchDefaultIntf (m : NodeMaps) : Except PyErr Intf :=
  let ks := m.intfs.map (fun pr => pr.1)
  if ks.isEmpty then .error .nameError
  else
    match dlookup m.intfs (listMax ks) with
    | some i => .ok i
    | none => .error .keyError

/-- Host.addvlan, map bookkeeping (node.py lines 520-542).  The assert on
the channel, the shell commands and the address regex are channel-level
and external; ipFound models whether the ip/prefix regex matched, the
early-return paths leave the maps unchanged.  On success the default
interface name gains a dot-vlan suffix at the same port and the NEW name
is inserted into ports, the old binding being left in place. -/
def addvlan (m : NodeMaps) (vlan : Nat) (ipFound : Bool) : Except PyErr NodeMaps :=
  match nodeDefaultIntf m with
  | none => .ok m
  | some intf =>
    if ipFound then
      match dlookup m.ports intf with
      | none => .error .keyError
      | some port =>
        let intf2 := intf ++ 46 :: natDigits vlan
        .ok { m with intfs := dinsert m.intfs port intf2,
                     ports := dinsert m.ports intf2 port }
    else .ok m

/-! ## KernelSwitch.start -/

/-- External commands issued by KernelSwitch.start, in order. -/
inductive Ev where
  | ifconfigLoUp
  | ifconfigUp (i : Intf)
  | dpctlDeldp
  | dpctlAdddp
  | ifconfigHwEther
  | dpctlAddif (is : List Intf)
  | ofprotocolStart
deriving Repr, DecidableEq

/-- KernelSwitch.start (node.py lines 730-752) as a trace of external
commands: startIntfs, dpctl deldp/adddp, the optional MAC setting, then
the contiguity guard on sorted(self.ports.values()); only when the guard
passes are the interfaces registered (dpctl addif) and the protocol
daemon launched.  An error carries the trace accumulated so far. -/
def kernelSwitchStart (m : NodeMaps) (hasDefaultMAC : Bool) :
    Except (PyErr × List Ev) (List Ev) :=
  let tr0 := Ev.ifconfigLoUp :: m.intfs.map (fun pr => Ev.ifconfigUp pr.2)
  let tr1 := tr0 ++ [Ev.dpctlDeldp, Ev.dpctlAdddp]
  let tr2 := if hasDefaultMAC then tr1 ++ [Ev.ifconfigHwEther] else tr1
  let ports := List.insertionSort (fun a b : Nat => a ≤ b) (m.ports.map (fun pr => pr.2))
  match ports.getLast? with
  | none => .error (.indexError, tr2)
  | some lastPort =>
    if (ports.length : Int) ≠ (lastPort : Int) + 1 - (m.portBase : Int) then
      .error (.contiguityError, tr2)
    else
      match ports.mapM (fun p => dlookup m.intfs p) with
      | none => .error (.keyError, tr2)
      | some intfs => .ok (tr2 ++ [Ev.dpctlAddif intfs, Ev.ofprotocolStart])

/-- Spec-side predicate, from the claim words of C4: the sorted attached
ports form a contiguous range starting at the base port index. -/
def contiguousFromBase (base : Nat) (ps : List Nat) : Bool :=
  List.insertionSort (fun a b => a ≤ b) ps = List.range' base ps.length

/-! ## The inverse-maps invariant (spec section 3) -/

/-- The port-to-name and name-to-port maps are exact inverses: every entry
of each map looks up back to itself through the other. -/
abbrev invMaps (m : NodeMaps) : Prop :=
  (∀ pr ∈ m.intfs, dlookup m.ports pr.2 = some pr.1) ∧
  (∀ pr ∈ m.ports, dlookup m.intfs pr.2 = some pr.1)

/-- Every connected interface has a canonical name: its name parses back
(via intfToPort) to exactly the port it is bound to in ports. -/
abbrev canonicalMaps (m : NodeMaps) : Prop :=
  ∀ c ∈ m.connection,
    intfToPort c.1 = .ok (dlookup m.ports c.1) ∧ (dlookup m.ports c.1).isSome = true

/-! ## Concrete inputs used by counterexamples and witnesses -/

/-- bytes of h1-eth0 -/
def bH1Eth0 : Intf := [104, 49, 45, 101, 116, 104, 48]

/-- bytes of h1-eth1 -/
def bH1Eth1 : Intf := [104, 49, 45, 101, 116, 104, 49]

/-- bytes of h2-eth0 -/
def bH2Eth0 : Intf := [104, 50, 45, 101, 116, 104, 48]

/-- a host with one canonical interface at port 0, linked to node 2 -/
def mC3 : NodeMaps :=
  { id := 1, name := [104, 49], portBase := 0,
    intfs := [(0, bH1Eth0)], ports := [(bH1Eth0, 0)],
    connection := [(bH1Eth0, (2, bH2Eth0))] }

/-- the maps after Host.addvlan 5 on mC3 (the regex having matched) -/
def addvlanCexResult : NodeMaps :=
  match addvlan mC3 5 true with
  | .ok m => m
  | .error _ => mC3

/-- a host with one interface at port 0 and a live connection entry -/
def mC5 : NodeMaps :=
  { id := 1, name := [104, 49], portBase := 0,
    intfs := [(0, bH1Eth0)], ports := [(bH1Eth0, 0)],
    connection := [(bH1Eth0, (2, bH2Eth0))] }

/-- mC5 after deleting its only interface -/
def mC5del : NodeMaps :=
  match deleteIntf mC5 bH1Eth0 with
  | .ok m => m
  | .error _ => mC5

/-- a switch with portBase 1 whose attached ports are 0 and 2: not a
contiguous range starting at 1, yet of the cardinality the start guard
tests for -/
def mC4hole : NodeMaps :=
  { id := 1, name := [115, 49], portBase := 1,
    intfs := [(0, [97]), (2, [98])], ports := [([97], 0), ([98], 2)],
    connection := [] }

/-- a switch with portBase 1 whose attached ports are 2 and 3 -/
def mC4gap : NodeMaps :=
  { id := 1, name := [115, 49], portBase := 1,
    intfs := [(2, [97]), (3, [98])], ports := [([97], 2), ([98], 3)],
    connection := [] }

/-- a node with interfaces at ports 0 and 2 -/
def mC9 : NodeMaps :=
  { id := 1, name := [104, 49], portBase := 0,
    intfs := [(0, [97]), (2, [98])], ports := [([97], 0), ([98], 2)],
    connection := [] }

/-- a freshly created node: no interfaces at all -/
def mC10 : NodeMaps :=
  { id := 1, name := [104, 49], portBase := 0,
    intfs := [], ports := [], connection := [] }

/-- channel state whose pending chunk is a, sentinel, b, sentinel -/
def sC2cex : NState :=
  { chan := ⟨[97, 127, 98, 127], []⟩, serial := 0, waiting := true,
    lastCmd := none, lastPid := none, execed := false, wlog := [] }

/-- a controller-like node with execed set, not waiting, whose shell has
the echo marker and a prompt pending -/
def sC7cex : NState :=
  { chan := ⟨[], markerFor 1 ++ [127]⟩, serial := 0, waiting := false,
    lastCmd := none, lastPid := none, execed := true, wlog := [] }

/-- a node mid-command: waiting, with the rest of the running command's
output and the sentinel pending -/
def sC1 : NState :=
  { chan := ⟨[], [104, 105, 127]⟩, serial := 0, waiting := true,
    lastCmd := none, lastPid := none, execed := false, wlog := [] }

def exceptIsOk {ε α : Type} : Except ε α → Bool
  | .ok _ => true
  | .error _ => false

def sendOk : Except SendErr NState → Bool
  | .ok _ => true
  | _ => false

def sendOkWaiting : Except SendErr NState → Bool
  | .ok s => s.waiting
  | _ => false

def sendOkWroteLen : Except SendErr NState → Nat
  | .ok s => s.wlog.length
  | _ => 0

instance {ε α : Type} [DecidableEq ε] [DecidableEq α] : DecidableEq (Except ε α) :=
  fun x y =>
    match x, y with
    | .ok a, .ok b => decidable_of_iff (a = b) (by simp)
    | .error a, .error b => decidable_of_iff (a = b) (by simp)
    | .ok _, .error _ => isFalse (fun h => Except.noConfusion h)
    | .error _, .ok _ => isFalse (fun h => Except.noConfusion h)

/-! ## Association-list lemmas -/

theorem ddelete_cons {α β : Type} [DecidableEq α] (a : α) (b : β)
    (rest : List (α × β)) (k : α) :
    ddelete ((a, b) :: rest) k =
      if a = k then ddelete rest k else (a, b) :: ddelete rest k := by
  by_cases h : a = k <;> simp [ddelete, List.filter_cons, h]

theorem dlookup_ddelete_ne {α β : Type} [DecidableEq α] (d : List (α × β)) (k k1 : α)
    (h : k1 ≠ k) : dlookup (ddelete d k) k1 = dlookup d k1 := by
  induction d with
  | nil => rfl
  | cons pr rest ih =>
    obtain ⟨a, b⟩ := pr
    rw [ddelete_cons]
    by_cases hak : a = k
    · subst hak
      rw [if_pos rfl, ih]
      simp only [dlookup]
      rw [if_neg h]
    · rw [if_neg hak]
      simp only [dlookup]
      by_cases hk1 : k1 = a
      · rw [if_pos hk1, if_pos hk1]
      · rw [if_neg hk1, if_neg hk1, ih]

theorem dlookup_ddelete_self {α β : Type} [DecidableEq α] (d : List (α × β)) (k : α) :
    dlookup (ddelete d k) k = none := by
  induction d with
  | nil => rfl
  | cons pr rest ih =>
    obtain ⟨a, b⟩ := pr
    rw [ddelete_cons]
    by_cases hak : a = k
    · rw [if_pos hak]; exact ih
    · rw [if_neg hak]
      simp only [dlookup]
      rw [if_neg (fun e : k = a => hak e.symm), ih]

theorem dlookup_dinsert_self {α β : Type} [DecidableEq α] (d : List (α × β))
    (k : α) (v : β) : dlookup (dinsert d k v) k = some v := by
  simp [dinsert, dlookup]

theorem dlookup_dinsert_ne {α β : Type} [DecidableEq α] (d : List (α × β))
    (k k1 : α) (v : β) (h : k1 ≠ k) :
    dlookup (dinsert d k v) k1 = dlookup d k1 := by
  simp only [dinsert, dlookup]
  rw [if_neg h]
  exact dlookup_ddelete_ne d k k1 h

theorem mem_ddelete {α β : Type} [DecidableEq α] {d : List (α × β)} {k : α}
    {pr : α × β} : pr ∈ ddelete d k ↔ pr ∈ d ∧ pr.1 ≠ k := by
  simp [ddelete, List.mem_filter]

theorem mem_dinsert {α β : Type} [DecidableEq α] {d : List (α × β)} {k : α} {v : β}
    {pr : α × β} : pr ∈ dinsert d k v ↔ pr = (k, v) ∨ (pr ∈ d ∧ pr.1 ≠ k) := by
  simp [dinsert, mem_ddelete]

theorem dlookup_mem {α β : Type} [DecidableEq α] {d : List (α × β)} {k : α} {v : β}
    (h : dlookup d k = some v) : (k, v) ∈ d := by
  induction d with
  | nil => cases h
  | cons pr rest ih =>
    obtain ⟨a, b⟩ := pr
    simp only [dlookup] at h
    by_cases hk : k = a
    · rw [if_pos hk] at h
      injection h with h
      subst hk; subst h
      exact List.mem_cons_self _ _
    · rw [if_neg hk] at h
      exact List.mem_cons_of_mem _ (ih h)

theorem dlookup_eq_of_mem_nodup {α β : Type} [DecidableEq α] {d : List (α × β)}
    {k : α} {v : β} (hm : (k, v) ∈ d) (hn : (d.map (fun pr => pr.1)).Nodup) :
    dlookup d k = some v := by
  induction d with
  | nil => cases hm
  | cons pr rest ih =>
    obtain ⟨a, b⟩ := pr
    simp only [List.map_cons, List.nodup_cons] at hn
    rcases List.mem_cons.mp hm with he | hm2
    · injection he with h1 h2
      subst h1; subst h2
      simp [dlookup]
    · have hka : k ≠ a := by
        intro e
        subst e
        exact hn.1 (List.mem_map.mpr ⟨(k, v), hm2, rfl⟩)
      simp only [dlookup]
      rw [if_neg hka]
      exact ih hm2 hn.2

/-! ## min / max lemmas -/

theorem le_listMax_of_mem {l : List Nat} {x : Nat} (h : x ∈ l) : x ≤ listMax l := by
  induction l with
  | nil => cases h
  | cons y ys ih =>
    rcases List.mem_cons.mp h with rfl | hm
    · exact le_max_left _ _
    · exact le_trans (ih hm) (le_max_right _ _)

theorem listMax_mem {l : List Nat} (h : l ≠ []) : listMax l ∈ l := by
  induction l with
  | nil => exact absurd rfl h
  | cons y ys ih =>
    cases ys with
    | nil => simp [listMax]
    | cons z zs =>
      rcases le_total y (listMax (z :: zs)) with hle | hle
      · have : listMax (y :: z :: zs) = listMax (z :: zs) := max_eq_right hle
        rw [this]
        exact List.mem_cons_of_mem _ (ih (by simp))
      · have : listMax (y :: z :: zs) = y := max_eq_left hle
        rw [this]
        exact List.mem_cons_self _ _

theorem foldlMin_le_init (xs : List Nat) (a : Nat) : xs.foldl min a ≤ a := by
  induction xs generalizing a with
  | nil => exact le_refl a
  | cons y ys ih =>
    simp only [List.foldl_cons]
    exact le_trans (ih (min a y)) (min_le_left _ _)

theorem foldlMin_le_mem (xs : List Nat) (a : Nat) : ∀ x ∈ xs, xs.foldl min a ≤ x := by
  induction xs generalizing a with
  | nil => intro x hx; cases hx
  | cons y ys ih =>
    intro x hx
    simp only [List.foldl_cons]
    rcases List.mem_cons.mp hx with rfl | hm
    · exact le_trans (foldlMin_le_init ys (min a x)) (min_le_right _ _)
    · exact ih (min a y) x hm

theorem foldlMin_mem_or (xs : List Nat) (a : Nat) :
    xs.foldl min a = a ∨ xs.foldl min a ∈ xs := by
  induction xs generalizing a with
  | nil => exact Or.inl rfl
  | cons y ys ih =>
    simp only [List.foldl_cons]
    rcases ih (min a y) with he | hm
    · rw [he]
      rcases le_total a y with h | h
      · exact Or.inl (min_eq_left h)
      · exact Or.inr (List.mem_cons.mpr (Or.inl (min_eq_right h)))
    · exact Or.inr (List.mem_cons_of_mem _ hm)

theorem listMin_le {l : List Nat} {x : Nat} (h : x ∈ l) : listMin l ≤ x := by
  cases l with
  | nil => cases h
  | cons y ys =>
    rcases List.mem_cons.mp h with rfl | hm
    · exact foldlMin_le_init ys x
    · exact foldlMin_le_mem ys y x hm

theorem listMin_mem {l : List Nat} (h : l ≠ []) : listMin l ∈ l := by
  cases l with
  | nil => exact absurd rfl h
  | cons y ys =>
    rcases foldlMin_mem_or ys y with he | hm
    · rw [listMin, he]; exact List.mem_cons_self _ _
    · exact List.mem_cons_of_mem _ hm

/-! ## Claim C6 -/

/-- C6: for every two nodes and any optional explicit ports, immediately
after linkTo returns the pair (intf1, intf2), the first node's connection
maps intf1 to (the second node, intf2) and the second node's connection
maps intf2 to (the first node, intf1): the entries are registered
symmetrically on both endpoints. -/
theorem linkTo_connection_symmetric (m1 m2 : NodeMaps) (port1? port2? : Option Nat) :
    dlookup (linkTo m1 m2 port1? port2?).n1.connection (linkTo m1 m2 port1? port2?).intf1 =
      some ((linkTo m1 m2 port1? port2?).n2.id, (linkTo m1 m2 port1? port2?).intf2) ∧
    dlookup (linkTo m1 m2 port1? port2?).n2.connection (linkTo m1 m2 port1? port2?).intf2 =
      some ((linkTo m1 m2 port1? port2?).n1.id, (linkTo m1 m2 port1? port2?).intf1) :=
  ⟨dlookup_dinsert_self _ _ _, dlookup_dinsert_self _ _ _⟩

/-! ## Claim C10 -/

/-- C10: on a node with no interfaces at all, Switch.defaultIntf raises
(its local result variable is never assigned, so the return fails with a
NameError) while Node.defaultIntf returns None. -/
theorem switch_defaultIntf_empty_raises (m : NodeMaps) (h : m.intfs = []) :
    nodeDefaultIntf m = none ∧ switchDefaultIntf m = .error .nameError := by
  rw [nodeDefaultIntf, switchDefaultIntf, h]
  exact ⟨rfl, rfl⟩

/-- Witness for C10 at a concrete freshly created node. -/
theorem switch_defaultIntf_empty_raises_witness :
    nodeDefaultIntf mC10 = none ∧ switchDefaultIntf mC10 = .error .nameError :=
  switch_defaultIntf_empty_raises mC10 (by decide)

/-! ## Claim C9 -/

/-- C9: on a node holding at least one interface, Node.defaultIntf returns
the interface bound at the lowest-numbered port while Switch.defaultIntf
returns the interface bound at the highest-numbered port. -/
theorem defaultIntf_lowest_switch_highest (m : NodeMaps) (p P : Nat) (i I : Intf)
    (hnodup : (m.intfs.map (fun pr => pr.1)).Nodup)
    (hmem : (p, i) ∈ m.intfs) (hmin : ∀ pr ∈ m.intfs, p ≤ pr.1)
    (hMem : (P, I) ∈ m.intfs) (hmax : ∀ pr ∈ m.intfs, pr.1 ≤ P) :
    nodeDefaultIntf m = some i ∧ switchDefaultIntf m = .ok I := by
  have hpk : p ∈ m.intfs.map (fun pr => pr.1) := List.mem_map.mpr ⟨(p, i), hmem, rfl⟩
  have hPk : P ∈ m.intfs.map (fun pr => pr.1) := List.mem_map.mpr ⟨(P, I), hMem, rfl⟩
  have hne : m.intfs.map (fun pr => pr.1) ≠ [] := List.ne_nil_of_mem hpk
  have hlow : ∀ x ∈ m.intfs.map (fun pr => pr.1), p ≤ x := by
    intro x hx
    obtain ⟨pr, hpr, rfl⟩ := List.mem_map.mp hx
    exact hmin pr hpr
  have hhigh : ∀ x ∈ m.intfs.map (fun pr => pr.1), x ≤ P := by
    intro x hx
    obtain ⟨pr, hpr, rfl⟩ := List.mem_map.mp hx
    exact hmax pr hpr
  have hminEq : listMin (m.intfs.map (fun pr => pr.1)) = p :=
    le_antisymm (listMin_le hpk) (hlow _ (listMin_mem hne))
  have hmaxEq : listMax (m.intfs.map (fun pr => pr.1)) = P :=
    le_antisymm (hhigh _ (listMax_mem hne)) (le_listMax_of_mem hPk)
  have hempty : (m.intfs.map (fun pr => pr.1)).isEmpty = false := by
    cases he : m.intfs.map (fun pr => pr.1) with
    | nil => exact absurd he hne
    | cons _ _ => rfl
  constructor
  · rw [nodeDefaultIntf]
    simp only [hempty, Bool.false_eq_true, if_false, hminEq]
    exact dlookup_eq_of_mem_nodup hmem hnodup
  · rw [switchDefaultIntf]
    simp only [hempty, Bool.false_eq_true, if_false, hmaxEq]
    rw [dlookup_eq_of_mem_nodup hMem hnodup]

/-- Witness for C9: on a node with interfaces at ports 0 and 2,
defaultIntf picks port 0 for a plain node and port 2 for a switch. -/
theorem defaultIntf_lowest_switch_highest_witness :
    nodeDefaultIntf mC9 = some [97] ∧ switchDefaultIntf mC9 = .ok [98] :=
  defaultIntf_lowest_switch_highest mC9 0 2 [97] [98]
    (by decide) (by decide) (by decide) (by decide) (by decide)

/-! ## Claim C5 -/

/-- C5 (amended): newPort returns max(assigned ports) + 1 when any port is
assigned and portBase otherwise; it is a pure function of the current
port table, and its value strictly exceeds every currently-assigned port
on the node. -/
theorem newPort_exceeds_assigned (m : NodeMaps) :
    (m.ports = [] → newPort m = m.portBase) ∧
    (m.ports ≠ [] → newPort m = listMax (m.ports.map (fun pr => pr.2)) + 1) ∧
    (∀ pr ∈ m.ports, pr.2 < newPort m) := by
  refine ⟨?_, ?_, ?_⟩
  · intro h
    rw [newPort, h]
    rfl
  · intro h
    rw [newPort]
    rw [if_neg (by simpa [List.isEmpty_iff] using h)]
  · intro pr hpr
    have hne : m.ports ≠ [] := List.ne_nil_of_mem hpr
    rw [newPort, if_neg (by simpa [List.isEmpty_iff] using hne)]
    have : pr.2 ≤ listMax (m.ports.map (fun q => q.2)) :=
      le_listMax_of_mem (List.mem_map.mpr ⟨pr, hpr, rfl⟩)
    omega

/-- Witness for C5 on a node with one port assigned. -/
theorem newPort_exceeds_assigned_witness : (0 : Nat) < newPort mC5 :=
  (newPort_exceeds_assigned mC5).2.2 (bH1Eth0, 0) (by decide)

/-- Counterexample for C5 as stated: the values newPort returns are NOT
monotonic across deletions.  On mC5 newPort returns 1; after deleting the
interface at port 0 (the highest), newPort returns 0 again, a smaller
value, so deletion order is observable and port numbers are reused. -/
theorem newPort_not_monotonic_cex :
    newPort mC5 = 1 ∧ deleteIntf mC5 bH1Eth0 = .ok mC5del ∧ newPort mC5del = 0 := by
  decide

/-! ## Claim C2 -/

/-- C2 (amended): for a chunk containing no PID-marker byte but containing
the sentinel byte chr(127), monitor clears the waiting flag; when the
sentinel is the LAST byte of the chunk only that one final byte is
stripped (earlier sentinel bytes are kept), and otherwise every instance
of the sentinel is stripped, the remaining text being returned
unchanged. -/
theorem monitor_sentinel_amended (data : List Nat) (w : Bool) (lp : Option Nat)
    (h1 : data.contains 1 = false) (h127 : data.contains 127 = true) :
    (monitorData data w lp).2.1 = false ∧
    (monitorData data w lp).1 =
      (if data.getLast? = some 127 then data.dropLast
       else data.filter (fun c => !(c == 127))) := by
  rw [monitorData]
  simp only [h1, Bool.false_eq_true, if_false]
  by_cases hl : data.getLast? = some 127
  · simp [hl]
  · have hmem : 127 ∈ data := by simpa using h127
    simp [hl, hmem]

/-- Witness for C2 (amended) at a concrete chunk ending in the sentinel. -/
theorem monitor_sentinel_amended_witness :
    (monitorData [97, 127] true none).2.1 = false ∧
    (monitorData [97, 127] true none).1 =
      (if ([97, 127] : List Nat).getLast? = some 127 then ([97, 127] : List Nat).dropLast
       else ([97, 127] : List Nat).filter (fun c => !(c == 127))) :=
  monitor_sentinel_amended [97, 127] true none (by decide) (by decide)

/-- Counterexample for C2 as stated: on the pending chunk a,127,b,127 the
sentinel is the last byte AND also appears within the chunk; monitor
clears waiting but strips only the final byte, returning a,127,b, which
still contains a sentinel instance, not the fully stripped a,b. -/
theorem monitor_sentinel_not_all_stripped_cex :
    (monitor sC2cex).1 = [97, 127, 98] ∧
    (monitor sC2cex).1.contains 127 = true ∧
    (monitor sC2cex).1 ≠ [97, 98] ∧
    (monitor sC2cex).2.waiting = false := by
  decide

/-! ## Claim C3: the inverse-maps invariant -/

theorem addIntf_invMaps (m : NodeMaps) (i : Intf) (p : Nat)
    (hi : invMaps m) (hp : dlookup m.intfs p = none) (hn : dlookup m.ports i = none) :
    invMaps (addIntf m i (some p)) := by
  constructor
  · intro pr hpr
    have hpr2 : pr ∈ dinsert m.intfs p i := hpr
    rcases mem_dinsert.mp hpr2 with he | ⟨hm, hne⟩
    · subst he
      exact dlookup_dinsert_self _ _ _
    · have h0 := hi.1 pr hm
      have hni : pr.2 ≠ i := by
        intro e
        rw [e] at h0
        rw [h0] at hn
        cases hn
      show dlookup (dinsert m.ports i p) pr.2 = some pr.1
      rw [dlookup_dinsert_ne _ _ _ _ hni, h0]
  · intro pr hpr
    have hpr2 : pr ∈ dinsert m.ports i p := hpr
    rcases mem_dinsert.mp hpr2 with he | ⟨hm, hne⟩
    · subst he
      exact dlookup_dinsert_self _ _ _
    · have h0 := hi.2 pr hm
      have hnp : pr.2 ≠ p := by
        intro e
        rw [e] at h0
        rw [h0] at hp
        cases hp
      show dlookup (dinsert m.intfs p i) pr.2 = some pr.1
      rw [dlookup_dinsert_ne _ _ _ _ hnp, h0]

theorem deleteIntf_eq (m : NodeMaps) (i : Intf) (p : Nat) (c : Nat × Intf)
    (hconn : dlookup m.connection i = some c)
    (hparse : intfToPort i = .ok (some p))
    (hintf : dlookup m.intfs p = some i)
    (hport : dlookup m.ports i = some p) :
    deleteIntf m i = .ok { m with connection := ddelete m.connection i,
                                  intfs := ddelete m.intfs p,
                                  ports := ddelete m.ports i } := by
  simp only [deleteIntf, hconn, hparse, hintf, hport]

theorem invMaps_delete (m : NodeMaps) (i : Intf) (p : Nat)
    (hi : invMaps m) (hintf : dlookup m.intfs p = some i)
    (hport : dlookup m.ports i = some p) :
    invMaps { m with connection := ddelete m.connection i,
                     intfs := ddelete m.intfs p, ports := ddelete m.ports i } := by
  constructor
  · intro pr hpr
    have hpr2 : pr ∈ ddelete m.intfs p := hpr
    obtain ⟨hm, hne⟩ := mem_ddelete.mp hpr2
    have h0 := hi.1 pr hm
    have hni : pr.2 ≠ i := by
      intro e
      rw [e, hport] at h0
      injection h0 with h0
      exact hne h0.symm
    show dlookup (ddelete m.ports i) pr.2 = some pr.1
    rw [dlookup_ddelete_ne _ _ _ hni, h0]
  · intro pr hpr
    have hpr2 : pr ∈ ddelete m.ports i := hpr
    obtain ⟨hm, hne⟩ := mem_ddelete.mp hpr2
    have h0 := hi.2 pr hm
    have hnp : pr.2 ≠ p := by
      intro e
      rw [e, hintf] at h0
      injection h0 with h0
      exact hne h0.symm
    show dlookup (ddelete m.intfs p) pr.2 = some pr.1
    rw [dlookup_ddelete_ne _ _ _ hnp, h0]

theorem canonicalMaps_delete (m : NodeMaps) (i : Intf) (p : Nat)
    (hc : canonicalMaps m) :
    canonicalMaps { m with connection := ddelete m.connection i,
                           intfs := ddelete m.intfs p, ports := ddelete m.ports i } := by
  intro c hcm
  have hcm2 : c ∈ ddelete m.connection i := hcm
  obtain ⟨hm, hne⟩ := mem_ddelete.mp hcm2
  have h0 := hc c hm
  show intfToPort c.1 = .ok (dlookup (ddelete m.ports i) c.1) ∧
    (dlookup (ddelete m.ports i) c.1).isSome = true
  rw [dlookup_ddelete_ne _ _ _ hne]
  exact h0

theorem deleteIntf_ok_shape (m : NodeMaps) (i : Intf) (m2 : NodeMaps)
    (hi : invMaps m) (hc : canonicalMaps m) (h : deleteIntf m i = .ok m2) :
    ∃ p, dlookup m.intfs p = some i ∧ dlookup m.ports i = some p ∧
      m2 = { m with connection := ddelete m.connection i,
                    intfs := ddelete m.intfs p, ports := ddelete m.ports i } := by
  cases hconn : dlookup m.connection i with
  | none =>
    rw [deleteIntf.eq_def, hconn] at h
    cases h
  | some c =>
    have hpEq : intfToPort i = .ok (dlookup m.ports i) :=
      (hc (i, c) (dlookup_mem hconn)).1
    have hpSome : (dlookup m.ports i).isSome = true :=
      (hc (i, c) (dlookup_mem hconn)).2
    cases hpv : dlookup m.ports i with
    | none => rw [hpv] at hpSome; cases hpSome
    | some p =>
      rw [hpv] at hpEq
      have hintf : dlookup m.intfs p = some i := hi.2 (i, p) (dlookup_mem hpv)
      refine ⟨p, hintf, rfl, ?_⟩
      rw [deleteIntf_eq m i p c hconn hpEq hintf hpv] at h
      injection h with h
      exact h.symm

theorem deleteIntf_ok_both (m : NodeMaps) (i : Intf) (m2 : NodeMaps)
    (hi : invMaps m) (hc : canonicalMaps m) (h : deleteIntf m i = .ok m2) :
    invMaps m2 ∧ canonicalMaps m2 := by
  obtain ⟨p, hintf, hport, he⟩ := deleteIntf_ok_shape m i m2 hi hc h
  subst he
  exact ⟨invMaps_delete m i p hi hintf hport, canonicalMaps_delete m i p hc⟩

theorem deleteIntfList_ok (is : List Intf) :
    ∀ m m2 : NodeMaps, invMaps m → canonicalMaps m →
      deleteIntfList is m = .ok m2 → invMaps m2 ∧ canonicalMaps m2 := by
  induction is with
  | nil =>
    intro m m2 hi hc h
    simp only [deleteIntfList] at h
    injection h with h
    subst h
    exact ⟨hi, hc⟩
  | cons i is ih =>
    intro m m2 hi hc h
    cases hd : deleteIntf m i with
    | error e =>
      simp only [deleteIntfList, hd] at h
      cases h
    | ok m1 =>
      simp only [deleteIntfList, hd] at h
      obtain ⟨hi1, hc1⟩ := deleteIntf_ok_both m i m1 hi hc hd
      exact ih m1 m2 hi1 hc1 h

theorem deleteIntfsToNode_ok (m dst : NodeMaps) (dp : Option Nat) (m2 : NodeMaps)
    (hi : invMaps m) (hc : canonicalMaps m)
    (h : deleteIntfsToNode m dst dp = .ok m2) : invMaps m2 ∧ canonicalMaps m2 :=
  deleteIntfList_ok _ m m2 hi hc h

/-- C3 (amended): the port-to-name and name-to-port maps are exact
inverses after addIntf with a fresh port and name, after deleteIntf and
deletePort on nodes whose connected interfaces are canonical, after
linkTo with fresh ports and names on both endpoints, and after unlinkFrom
on canonical nodes; Host.addvlan is the exception, shown separately. -/
theorem maps_inverse_after_ops :
    (∀ m i p, invMaps m → dlookup m.intfs p = none → dlookup m.ports i = none →
      invMaps (addIntf m i (some p))) ∧
    (∀ m i m2, invMaps m → canonicalMaps m → deleteIntf m i = .ok m2 → invMaps m2) ∧
    (∀ m p m2, invMaps m → canonicalMaps m → deletePort m p = .ok m2 → invMaps m2) ∧
    (∀ m1 m2 p1? p2?, invMaps m1 → invMaps m2 →
      dlookup m1.intfs (p1?.getD (newPort m1)) = none →
      dlookup m1.ports (intfName m1 (p1?.getD (newPort m1))) = none →
      dlookup m2.intfs (p2?.getD (newPort m2)) = none →
      dlookup m2.ports (intfName m2 (p2?.getD (newPort m2))) = none →
      invMaps (linkTo m1 m2 p1? p2?).n1 ∧ invMaps (linkTo m1 m2 p1? p2?).n2) ∧
    (∀ m1 m2 m1a m2a, invMaps m1 → canonicalMaps m1 → invMaps m2 → canonicalMaps m2 →
      unlinkFrom m1 m2 = .ok (m1a, m2a) → invMaps m1a ∧ invMaps m2a) := by
  refine ⟨addIntf_invMaps, ?_, ?_, ?_, ?_⟩
  · intro m i m2 hi hc h
    exact (deleteIntf_ok_both m i m2 hi hc h).1
  · intro m p m2 hi hc h
    exact (deleteIntf_ok_both m (intfName m p) m2 hi hc h).1
  · intro m1 m2 p1? p2? h1 h2 hi1 hn1 hi2 hn2
    exact ⟨addIntf_invMaps m1 _ _ h1 hi1 hn1, addIntf_invMaps m2 _ _ h2 hi2 hn2⟩
  · intro m1 m2 m1a m2a h1 hc1 h2 hc2 h
    cases hd1 : deleteIntfsToNode m1 m2 none with
    | error e =>
      simp only [unlinkFrom, hd1] at h
      cases h
    | ok m1b =>
      cases hd2 : deleteIntfsToNode m2 m1b none with
      | error e =>
        simp only [unlinkFrom, hd1, hd2] at h
        cases h
      | ok m2b =>
        simp only [unlinkFrom, hd1, hd2] at h
        injection h with h
        rw [Prod.mk.injEq] at h
        obtain ⟨ha, hb⟩ := h
        rw [← ha, ← hb]
        exact ⟨(deleteIntfsToNode_ok m1 m2 none m1b h1 hc1 hd1).1,
               (deleteIntfsToNode_ok m2 m1b none m2b h2 hc2 hd2).1⟩

/-- Witness for C3 (amended): adding a fresh canonical interface at fresh
port 1 to the concrete host keeps the maps exact inverses. -/
theorem maps_inverse_after_ops_witness : invMaps (addIntf mC3 bH1Eth1 (some 1)) :=
  maps_inverse_after_ops.1 mC3 bH1Eth1 1 (by decide) (by decide) (by decide)

/-- Counterexample for C3 as stated: Host.addvlan on a host whose default
interface sits at port 0 succeeds, but afterwards the name-to-port map
still holds the replaced base name h1-eth0 bound to port 0 while the
port-to-name map binds port 0 to the new vlan name h1-eth0.5, so the two
maps are no longer exact inverses. -/
theorem addvlan_breaks_inverse_cex :
    addvlan mC3 5 true = .ok addvlanCexResult ∧ ¬ invMaps addvlanCexResult := by
  constructor
  · decide
  · intro h
    exact absurd (h.2 (bH1Eth0, 0) (by decide)) (by decide)

/-! ## Claim C4: the KernelSwitch start guard -/

theorem listMax_perm {l1 l2 : List Nat} (h : l1.Perm l2) : listMax l1 = listMax l2 := by
  induction h with
  | nil => rfl
  | cons x h ih =>
    simp only [listMax, List.foldr_cons] at *
    rw [ih]
  | swap x y l =>
    simp only [listMax, List.foldr_cons]
    exact max_left_comm _ _ _
  | trans h1 h2 ih1 ih2 => rw [ih1, ih2]

theorem sorted_getLast?_eq_listMax :
    ∀ s : List Nat, List.Sorted (fun a b : Nat => a ≤ b) s → s ≠ [] →
      s.getLast? = some (listMax s) := by
  intro s
  induction s with
  | nil => intro _ h; exact absurd rfl h
  | cons x t ih =>
    intro hs _
    cases t with
    | nil => simp [listMax]
    | cons y t2 =>
      have hs2 : List.Sorted (fun a b : Nat => a ≤ b) (y :: t2) := hs.of_cons
      rw [List.getLast?_cons_cons, ih hs2 (by simp)]
      have hxy : x ≤ y := (List.sorted_cons.mp hs).1 y (List.mem_cons_self _ _)
      have hxm : x ≤ listMax (y :: t2) :=
        le_trans hxy (le_listMax_of_mem (List.mem_cons_self _ _))
      have : listMax (x :: y :: t2) = listMax (y :: t2) := by
        simp only [listMax, List.foldr_cons]
        exact max_eq_right hxm
      rw [this]

theorem getLast?_insertionSort_max (l : List Nat) (h : l ≠ []) :
    (List.insertionSort (fun a b : Nat => a ≤ b) l).getLast? = some (listMax l) := by
  have hp := List.perm_insertionSort (fun a b : Nat => a ≤ b) l
  have hs := List.sorted_insertionSort (fun a b : Nat => a ≤ b) l
  have hne : List.insertionSort (fun a b : Nat => a ≤ b) l ≠ [] := by
    intro e
    rw [e] at hp
    exact h (hp.symm.eq_nil)
  rw [sorted_getLast?_eq_listMax _ hs hne, listMax_perm hp]

/-- C4 (amended): KernelSwitch.start raises its contiguity exception
exactly when the size of the port multiset differs from
highest port + 1 - portBase (an incomplete proxy for the spec condition,
see the counterexample), and the raise happens before the interfaces are
registered with the datapath (dpctl addif) and before the ofprotocol
daemon is launched -- though after the interfaces are brought up and the
datapath is created. -/
theorem kernelSwitchStart_guard (m : NodeMaps) (hMAC : Bool)
    (hne : m.ports.map (fun pr => pr.2) ≠ [])
    (hbad : ((m.ports.map (fun pr => pr.2)).length : Int) ≠
      (listMax (m.ports.map (fun pr => pr.2)) : Int) + 1 - (m.portBase : Int)) :
    ∃ tr, kernelSwitchStart m hMAC = .error (.contiguityError, tr) ∧
      (∀ is, Ev.dpctlAddif is ∉ tr) ∧ Ev.ofprotocolStart ∉ tr := by
  rw [kernelSwitchStart]
  rw [getLast?_insertionSort_max _ hne]
  rw [(List.perm_insertionSort _ _).length_eq]
  simp only [if_pos hbad]
  refine ⟨_, rfl, ?_, ?_⟩
  · intro is
    by_cases hM : hMAC <;>
      simp [hM, List.mem_append, List.mem_map, List.mem_cons]
  · by_cases hM : hMAC <;>
      simp [hM, List.mem_append, List.mem_map, List.mem_cons]

/-- Witness for C4 (amended) on the concrete switch with ports 2 and 3
and base index 1 (the spec example). -/
theorem kernelSwitchStart_guard_witness :
    ∃ tr, kernelSwitchStart mC4gap false = .error (.contiguityError, tr) ∧
      (∀ is, Ev.dpctlAddif is ∉ tr) ∧ Ev.ofprotocolStart ∉ tr :=
  kernelSwitchStart_guard mC4gap false (by decide) (by decide)

/-- Counterexample for C4 as stated: on the switch with attached ports
0 and 2 and portBase 1 the sorted ports are not a contiguous range
starting at the base index, yet start raises nothing -- the count test
len(ports) == ports[-1] + 1 - portBase is satisfied and the backend
proceeds all the way to launching the daemon. -/
theorem kernelSwitchStart_noncontiguous_accepted_cex :
    contiguousFromBase mC4hole.portBase (mC4hole.ports.map (fun pr => pr.2)) = false ∧
    exceptIsOk (kernelSwitchStart mC4hole false) = true := by
  decide

/-! ## Claim C8: exact buffering across reads -/

theorem chanRead_spec (n a : Nat) (s : RState) :
    (chanRead n a s).1.length ≤ n ∧
    ∃ t, (chanRead n a s).2.kern = s.kern.drop t ∧
      (chanRead n a s).1 ++ (chanRead n a s).2.readbuf = s.readbuf ++ s.kern.take t := by
  rw [chanRead]
  by_cases hc : s.readbuf.length < n
  · simp only [if_pos hc]
    have hlen : (s.readbuf ++ s.kern.take (Nat.min a (n - s.readbuf.length))).length ≤ n := by
      rw [List.length_append, List.length_take]
      have h1 : Nat.min a (n - s.readbuf.length) ≤ n - s.readbuf.length :=
        Nat.min_le_right _ _
      have h2 : Nat.min (Nat.min a (n - s.readbuf.length)) s.kern.length ≤
          Nat.min a (n - s.readbuf.length) := Nat.min_le_left _ _
      omega
    simp only [if_pos hlen]
    refine ⟨hlen, Nat.min a (n - s.readbuf.length), rfl, ?_⟩
    rw [List.append_nil]
  · simp only [if_neg hc]
    by_cases hb : s.readbuf.length ≤ n
    · simp only [if_pos hb]
      refine ⟨hb, 0, by rw [List.drop_zero], ?_⟩
      rw [List.take_zero, List.append_nil]
    · simp only [if_neg hb]
      refine ⟨by rw [List.length_take]; exact Nat.min_le_left _ _, 0,
        by rw [List.drop_zero], ?_⟩
      rw [List.take_zero, List.append_nil, List.take_append_drop]

/-- C8: every Node.read call returns at most the requested number of
bytes, and across any sequence of read calls (with any request sizes and
any kernel delivery schedule) the concatenation of the returned strings
followed by the bytes still held in the buffer equals the initial buffer
content followed by the bytes delivered from the descriptor, which are
consumed strictly in order -- no byte is dropped or duplicated across
successive reads regardless of chunk boundaries. -/
theorem read_exact_buffering (calls : List (Nat × Nat)) (s : RState) :
    List.Forall₂ (fun c d => (d : List Nat).length ≤ c.1) calls (runReads calls s).1 ∧
    ∃ t, (runReads calls s).2.kern = s.kern.drop t ∧
      (runReads calls s).1.flatten ++ (runReads calls s).2.readbuf =
        s.readbuf ++ s.kern.take t := by
  induction calls generalizing s with
  | nil =>
    refine ⟨List.Forall₂.nil, 0, ?_, ?_⟩ <;> simp [runReads]
  | cons c rest ih =>
    obtain ⟨n, a⟩ := c
    obtain ⟨hlen, t0, hk0, he0⟩ := chanRead_spec n a s
    obtain ⟨hall, u, hk1, he1⟩ := ih (chanRead n a s).2
    have hrun : runReads ((n, a) :: rest) s =
        ((chanRead n a s).1 :: (runReads rest (chanRead n a s).2).1,
         (runReads rest (chanRead n a s).2).2) := by
      rw [runReads]
    rw [hrun]
    refine ⟨List.Forall₂.cons hlen hall, t0 + u, ?_, ?_⟩
    · rw [hk1, hk0, List.drop_drop]
    · simp only [List.flatten_cons]
      rw [List.append_assoc, he1, ← List.append_assoc, he0, List.append_assoc]
      congr 1
      rw [hk0, List.take_add]

/-! ## Claims C1 and C7: the command-dispatch protocol -/

theorem contains_append_false {x : Nat} {l1 l2 : List Nat}
    (h1 : l1.contains x = false) (h2 : l2.contains x = false) :
    (l1 ++ l2).contains x = false := by
  simp only [List.contains, List.elem_eq_mem, decide_eq_false_iff_not,
    List.mem_append] at h1 h2 ⊢
  intro h
  cases h with
  | inl h => exact h1 h
  | inr h => exact h2 h

theorem chanRead_all1024 (K : List Nat) (h : K.length ≤ 1024) :
    chanRead 1024 1024 ⟨[], K⟩ = (K, ⟨[], []⟩) := by
  rw [chanRead]
  simp only [List.length_nil, Nat.sub_zero, Nat.min_self, List.nil_append]
  rw [if_pos (by omega : (0 : Nat) < 1024)]
  rw [List.take_of_length_le h, List.drop_eq_nil_of_le h]
  simp only [if_pos h]

theorem isPrefixOf_append_self (l r : List Nat) : l.isPrefixOf (l ++ r) = true := by
  induction l with
  | nil => cases r <;> rfl
  | cons x xs ih =>
    show (x == x && xs.isPrefixOf (xs ++ r)) = true
    rw [ih]
    simp

theorem findSub_marker_nil (k : Nat) : findSub (markerFor k) [] = none := rfl

theorem findSub_marker_self (k : Nat) (r : List Nat) :
    findSub (markerFor k) (markerFor k ++ r) = some 0 := by
  show findSub (markerFor k)
    (95 :: ((95 :: 32 :: (natDigits k ++ [32, 95, 95])) ++ r)) = some 0
  rw [findSub]
  split
  · rfl
  · next hfalse => exact absurd (isPrefixOf_append_self (markerFor k) r) hfalse

theorem echoLoop_marker (fuel k : Nat) (r : List Nat) (hf : 2 ≤ fuel)
    (hlen : (markerFor k ++ r).length ≤ 1024) :
    echoLoop (markerFor k) fuel [] ⟨[], markerFor k ++ r⟩ = some (r, ⟨[], []⟩) := by
  cases fuel with
  | zero => omega
  | succ f0 =>
    cases f0 with
    | zero => omega
    | succ f1 =>
      rw [echoLoop, findSub_marker_nil]
      rw [chanRead_all1024 _ hlen]
      show echoLoop (markerFor k) (f1 + 1) ([] ++ (markerFor k ++ r)) ⟨[], []⟩ =
        some (r, ⟨[], []⟩)
      rw [List.nil_append]
      rw [echoLoop, findSub_marker_self]
      show some ((markerFor k ++ r).drop (0 + (markerFor k).length),
        (⟨[], []⟩ : RState)) = some (r, ⟨[], []⟩)
      rw [Nat.zero_add, List.drop_left]

theorem promptLoop_sentinel (fuel : Nat) (ch : RState) (hf : 1 ≤ fuel) :
    promptLoop fuel [127] ch = some ch := by
  cases fuel with
  | zero => omega
  | succ f0 =>
    rw [promptLoop]
    rw [if_pos (by decide : ([127] : List Nat).contains 127 = true)]

theorem monitor_clean (s : NState) (out : List Nat)
    (hch : s.chan = ⟨[], out ++ [127]⟩)
    (h1 : out.contains 1 = false) (h2 : out.contains 127 = false)
    (hl : out.length ≤ 1023) :
    monitor s = (out, { s with chan := ⟨[], []⟩, waiting := false }) := by
  have hlen : (out ++ [127]).length ≤ 1024 := by
    simp only [List.length_append, List.length_cons, List.length_nil]
    omega
  have hc1 : (out ++ [127]).contains 1 = false := contains_append_false h1 (by decide)
  have hmd : monitorData (out ++ [127]) s.waiting s.lastPid = (out, false, s.lastPid) := by
    rw [monitorData]
    simp only [hc1, Bool.false_eq_true, if_false]
    rw [List.getLast?_concat]
    rw [if_pos rfl]
    rw [List.dropLast_concat]
  rw [monitor, hch]
  rw [chanRead_all1024 _ hlen]
  simp only [hmd]

theorem sendCmd_ready (isB : List Nat → Bool) (pp um dib : Bool) (cmd : List Nat)
    (s : NState) (hw : s.waiting = false)
    (hch : s.chan = ⟨[], markerFor (s.serial + 1) ++ [127]⟩)
    (hm : (markerFor (s.serial + 1)).length ≤ 1023) :
    sendCmd isB pp um dib true 9 [cmd] s =
      .ok { s with
        serial := s.serial + 1, chan := ⟨[], []⟩,
        wlog := (s.wlog ++ echoCmdFor (s.serial + 1)) ++
          (wrapCmd isB pp um dib cmd ++ [10]),
        lastCmd := some (wrapCmd isB pp um dib cmd),
        lastPid := none, waiting := true } := by
  have hlen : (markerFor (s.serial + 1) ++ [127]).length ≤ 1024 := by
    simp only [List.length_append, List.length_cons, List.length_nil]
    omega
  have he : echoLoop (markerFor (s.serial + 1)) 9 []
      ⟨[], markerFor (s.serial + 1) ++ [127]⟩ = some ([127], ⟨[], []⟩) :=
    echoLoop_marker 9 (s.serial + 1) [127] (by omega) hlen
  have hp : promptLoop 9 [127] (⟨[], []⟩ : RState) = some ⟨[], []⟩ :=
    promptLoop_sentinel 9 _ (by omega)
  rw [sendCmd]
  rw [if_neg (by simp [hw])]
  rw [hch, he]
  show (match promptLoop 9 [127] (⟨[], []⟩ : RState) with
    | none => (Except.error SendErr.fuelOut : Except SendErr NState)
    | some ch2 =>
      if true = true then
        Except.ok { s with
          serial := s.serial + 1, chan := ch2,
          wlog := (s.wlog ++ echoCmdFor (s.serial + 1)) ++
            (wrapCmd isB pp um dib (joinBySpace [cmd]) ++ [10]),
          lastCmd := some (wrapCmd isB pp um dib (joinBySpace [cmd])),
          lastPid := none, waiting := true }
      else
        Except.ok { s with
          serial := s.serial + 1, chan := ch2,
          wlog := (s.wlog ++ echoCmdFor (s.serial + 1)) ++
            (wrapCmd isB pp um dib (joinBySpace [cmd]) ++ [10]) }) = _
  rw [hp]
  rfl

theorem waitOutput_clean (f : Nat) (s : NState) (out : List Nat)
    (hw : s.waiting = true)
    (hch : s.chan = ⟨[], out ++ [127]⟩)
    (h1 : out.contains 1 = false) (h2 : out.contains 127 = false)
    (hl : out.length ≤ 1023) :
    waitOutput none (f + 2) [] s =
      some (out, { s with chan := ⟨[], []⟩, waiting := false }) := by
  rw [waitOutput]
  rw [if_pos (by rw [hw]; rfl)]
  rw [monitor_clean s out hch h1 h2 hl]
  show waitOutput none (f + 1) ([] ++ out) { s with chan := ⟨[], []⟩, waiting := false } = some (out, { s with chan := ⟨[], []⟩, waiting := false })
  rw [List.nil_append]
  rw [waitOutput]
  rw [if_neg (by simp)]

/-- C1: if sendCmd is invoked while a previous command is still
outstanding (waiting true), the call raises the assertion instead of
queueing and leaves the channel state unchanged (the error carries the
node state exactly as it was: read buffer, serial, waiting, lastCmd);
once the outstanding command completes (monitor observes its remaining
output and the sentinel, clearing waiting) dispatching the same command
again succeeds, and collecting output then returns that command's own
output. -/
theorem sendCmd_busy_fails_then_retry (isB : List Nat → Bool) (pp um dib : Bool)
    (s : NState) (out1 out2 cmd2 : List Nat)
    (hw : s.waiting = true)
    (hch : s.chan = ⟨[], out1 ++ [127]⟩)
    (h1a : out1.contains 1 = false) (h1b : out1.contains 127 = false)
    (hl1 : out1.length ≤ 1023)
    (h2a : out2.contains 1 = false) (h2b : out2.contains 127 = false)
    (hl2 : out2.length ≤ 1023)
    (hm : (markerFor (s.serial + 1)).length ≤ 1023) :
    sendCmd isB pp um dib true 9 [cmd2] s = .error (.assertWaiting s) ∧
    monitor s = (out1, { s with chan := ⟨[], []⟩, waiting := false }) ∧
    ∃ s2, sendCmd isB pp um dib true 9 [cmd2]
        (feed { s with chan := ⟨[], []⟩, waiting := false }
          (markerFor (s.serial + 1) ++ [127])) = .ok s2 ∧
      s2.waiting = true ∧ s2.serial = s.serial + 1 ∧
      s2.lastCmd = some (wrapCmd isB pp um dib cmd2) ∧
      waitOutput none 9 [] (feed s2 (out2 ++ [127])) =
        some (out2, { s2 with chan := ⟨[], []⟩, waiting := false }) := by
  refine ⟨?_, monitor_clean s out1 hch h1a h1b hl1, ?_⟩
  · rw [sendCmd, if_pos hw]
  · refine ⟨_, sendCmd_ready isB pp um dib cmd2
      (feed { s with chan := ⟨[], []⟩, waiting := false }
        (markerFor (s.serial + 1) ++ [127])) rfl rfl hm, rfl, rfl, rfl, ?_⟩
    exact waitOutput_clean 7 _ out2 rfl rfl h2a h2b hl2

/-- Witness for C1 on a concrete busy node: dispatch of ls fails with the
state intact, the outstanding output hi is drained, the retry succeeds
and returns the retried command's own output ok. -/
theorem sendCmd_busy_fails_then_retry_witness :
    sendCmd (fun _ => false) true true false true 9 [[108, 115]] sC1 =
      .error (.assertWaiting sC1) ∧
    monitor sC1 = ([104, 105], { sC1 with chan := ⟨[], []⟩, waiting := false }) ∧
    ∃ s2, sendCmd (fun _ => false) true true false true 9 [[108, 115]]
        (feed { sC1 with chan := ⟨[], []⟩, waiting := false }
          (markerFor (sC1.serial + 1) ++ [127])) = .ok s2 ∧
      s2.waiting = true ∧ s2.serial = sC1.serial + 1 ∧
      s2.lastCmd = some (wrapCmd (fun _ => false) true true false [108, 115]) ∧
      waitOutput none 9 [] (feed s2 ([111, 107] ++ [127])) =
        some ([111, 107], { s2 with chan := ⟨[], []⟩, waiting := false }) :=
  sendCmd_busy_fails_then_retry (fun _ => false) true true false sC1
    [104, 105] [111, 107] [108, 115] (by decide) (by decide) (by decide)
    (by decide) (by decide) (by decide) (by decide) (by decide) (by decide)

/-- C7 (amended): Switch.sendCmd on a node with the executed flag set is
rejected: the error is logged, nothing is written to the command channel
and the waiting flag is not set -- the state comes back unchanged.
Controller, however, inherits the unguarded Node.sendCmd (see the
counterexample). -/
theorem switch_sendCmd_execed_rejected (isB : List Nat → Bool) (pp? : Option Bool)
    (um dib wf : Bool) (fuel : Nat) (args : List (List Nat)) (s : NState)
    (h : s.execed = true) :
    switchSendCmd isB pp? um dib wf fuel args s = .rejected s := by
  rw [switchSendCmd, if_pos h]

/-- Witness for C7 (amended) on the concrete execed node. -/
theorem switch_sendCmd_execed_rejected_witness :
    switchSendCmd (fun _ => false) none true false true 9 [[108, 115]] sC7cex =
      .rejected sC7cex :=
  switch_sendCmd_execed_rejected (fun _ => false) none true false true 9
    [[108, 115]] sC7cex rfl

/-- Counterexample for C7 as stated: a controller node dispatches through
the inherited Node.sendCmd, which never consults the executed flag; on a
concrete node with execed set (and not waiting) the dispatch of ls is
NOT rejected: it succeeds, bytes are written to the command channel and
awaitingCompletion is set. -/
theorem controller_sendCmd_execed_not_rejected_cex :
    sC7cex.execed = true ∧
    sendOk (controllerSendCmd (fun _ => false) true true false true 9
      [[108, 115]] sC7cex) = true ∧
    sendOkWaiting (controllerSendCmd (fun _ => false) true true false true 9
      [[108, 115]] sC7cex) = true ∧
    0 < sendOkWroteLen (controllerSendCmd (fun _ => false) true true false true 9
      [[108, 115]] sC7cex) := by
  decide
